import Mathlib

/-!
Verification development for a star-schema data-warehouse loader:
a dimension generator (`generate_date_dimension`, `generate_customers`,
`generate_products`), a bulk loader (`load_dimension_tables`), a synthetic
transaction generator (`generate_and_load_transactions`) and an analytics
entry point. The Python source is embedded shallowly: randomness becomes an
explicit stream of natural-number draws, the relational store becomes
explicit lists with commit/rollback made explicit, and monetary arithmetic
is carried out over exact rationals with two-decimal banker's rounding
(the rounding convention the pipeline is specified to use).
-/

namespace DWH

set_option maxRecDepth 8000

/-- Round a rational to the nearest integer, ties to even (banker's
rounding). Models Python's built-in `round` applied to exact values. -/
def rhe (x : ℚ) : ℤ :=
  if x - ⌊x⌋ < 1/2 then ⌊x⌋
  else if 1/2 < x - ⌊x⌋ then ⌊x⌋ + 1
  else if ⌊x⌋ % 2 = 0 then ⌊x⌋ else ⌊x⌋ + 1

/-- Python's `round(x, 2)`: round to two decimal places, ties to even. -/
def round2 (x : ℚ) : ℚ := (rhe (x * 100) : ℚ) / 100

/-- Failure modes of the loading pipeline.  `emptySample` is the
`ValueError` numpy raises when `np.random.choice` is applied to an empty
sequence; `missingProduct` is the `TypeError` from subscripting a `None`
returned by `fetchone`; `insertFailure` is a store error during an INSERT;
`precondition` is an explicit precondition check performed before
generation (no such check exists in the source — the constructor exists so
that its absence can be stated). -/
inductive LoadErr where
  | emptySample
  | missingProduct
  | insertFailure
  | precondition
  deriving DecidableEq, Repr

/-- Models `np.random.choice(l)` driven by one raw draw `r`: uniform
selection of one element, raising on an empty sequence. -/
def choice {α : Type} (l : List α) (r : ℕ) : Except LoadErr α :=
  if h : l.length = 0 then .error .emptySample
  else .ok (l.get ⟨r % l.length, Nat.mod_lt r (Nat.pos_of_ne_zero h)⟩)

/-- Models `SELECT price FROM products WHERE product_id = %s` over the
products table held as `(product_id, price)` pairs: first matching row. -/
def lookupPrice (pid : ℕ) : List (ℕ × ℚ) → Option ℚ
  | [] => none
  | (k, v) :: rest => if k = pid then some v else lookupPrice pid rest

/-- One row of the `sales_transactions` fact table. -/
structure Txn where
  customer_id : ℕ
  product_id : ℕ
  date_id : ℕ
  quantity : ℕ
  unit_price : ℚ
  total_amount : ℚ
  discount_amount : ℚ
  deriving DecidableEq, Repr

/-- The four discount percentages `[0, 0.05, 0.10, 0.15]` the generator
samples from (the sampling weights `[0.7, 0.15, 0.10, 0.05]` affect only
the distribution, not the support, and are not modelled). -/
def discountChoices : List ℚ := [0, 1/20, 1/10, 3/20]

/-- The monetary derivation of one fact row, exactly as coded:
`total_before_discount = unit_price * quantity`,
`discount_amount = round(total_before_discount * discount_pct, 2)`,
`total_amount = round(total_before_discount - discount_amount, 2)`. -/
def mkTxn (customer_id product_id date_id quantity : ℕ)
    (unit_price discount_pct : ℚ) : Txn :=
  let total_before_discount := unit_price * (quantity : ℚ)
  let discount_amount := round2 (total_before_discount * discount_pct)
  let total_amount := round2 (total_before_discount - discount_amount)
  { customer_id, product_id, date_id, quantity, unit_price,
    total_amount, discount_amount }

/-- The body of the per-row generation loop of
`DataLoader.generate_and_load_transactions`: sample a customer key, a
product key and a date key, look up the sampled product's price, sample a
quantity in 1..5 and a discount percentage, and derive the monetary
fields.  Row `i` consumes the five raw draws `σ (5*i) .. σ (5*i+4)`. -/
def genRow (customer_ids : List ℕ) (products : List (ℕ × ℚ)) (date_ids : List ℕ)
    (σ : ℕ → ℕ) (i : ℕ) : Except LoadErr Txn := do
  let customer_id ← choice customer_ids (σ (5 * i))
  let product_id ← choice (products.map Prod.fst) (σ (5 * i + 1))
  let date_id ← choice date_ids (σ (5 * i + 2))
  let unit_price ← match lookupPrice product_id products with
    | some p => Except.ok p
    | none => Except.error LoadErr.missingProduct
  let quantity := 1 + σ (5 * i + 3) % 5
  let discount_pct ← choice discountChoices (σ (5 * i + 4))
  Except.ok (mkTxn customer_id product_id date_id quantity unit_price discount_pct)

/-- Total (never-failing) form of `genRow`, used to describe the rows the
generator produces when all three key lists are nonempty. -/
def genRowD (customer_ids : List ℕ) (products : List (ℕ × ℚ)) (date_ids : List ℕ)
    (σ : ℕ → ℕ) (i : ℕ) : Txn :=
  let customer_id := customer_ids.getD (σ (5 * i) % customer_ids.length) 0
  let pkeys := products.map Prod.fst
  let product_id := pkeys.getD (σ (5 * i + 1) % pkeys.length) 0
  let date_id := date_ids.getD (σ (5 * i + 2) % date_ids.length) 0
  let unit_price := (lookupPrice product_id products).getD 0
  let quantity := 1 + σ (5 * i + 3) % 5
  let discount_pct := discountChoices.getD (σ (5 * i + 4) % discountChoices.length) 0
  mkTxn customer_id product_id date_id quantity unit_price discount_pct

/-- Start indices of the processing batches: Python's `range(s, n, B)`,
computed with fuel (the number of batches never exceeds the row count). -/
def batchStartsAux (B : ℕ) : ℕ → ℕ → ℕ → List ℕ
  | 0, _, _ => []
  | fuel + 1, s, n => if s < n then s :: batchStartsAux B fuel (s + B) n else []

/-- `range(0, n, B)`: the batch start indices of a run of `n` rows. -/
def batchStarts (B n : ℕ) : List ℕ := batchStartsAux B n 0 n

/-- Run a fallible computation over each list element in order, stopping
at the first failure (the Python loop raises out of the batch). -/
def mapME {α β : Type} (f : α → Except LoadErr β) : List α → Except LoadErr (List β)
  | [] => .ok []
  | a :: l => do
    let b ← f a
    let bs ← mapME f l
    .ok (b :: bs)

/-- Generate the batch of rows `[s, min (s+5000) n)`: the inner loop of
`generate_and_load_transactions`, stopping at the first failing row. -/
def genBatch (customer_ids : List ℕ) (products : List (ℕ × ℚ)) (date_ids : List ℕ)
    (σ : ℕ → ℕ) (s n : ℕ) : Except LoadErr (List Txn) :=
  mapME (genRow customer_ids products date_ids σ) (List.range' s (min (s + 5000) n - s))

/-- Observable outcome of a transaction-loading run: the batches that were
committed (in commit order) and the error that aborted the run, if any. -/
structure RunResult where
  committed : List (List Txn)
  error : Option LoadErr
  deriving DecidableEq, Repr

/-- The batch loop of `generate_and_load_transactions` with commit
semantics made explicit.  Each iteration generates one batch, bulk-inserts
it (`insertFails k` models a store failure while inserting batch `k`) and
commits it before the next batch begins.  A failure aborts the run: the
`with`-block rolls back only the uncommitted work, so batches already
committed stay committed, and no retry is attempted. -/
def runBatches (customer_ids : List ℕ) (products : List (ℕ × ℚ)) (date_ids : List ℕ)
    (σ : ℕ → ℕ) (insertFails : ℕ → Bool) (n : ℕ) :
    List ℕ → List (List Txn) → RunResult
  | [], acc => ⟨acc, none⟩
  | s :: rest, acc =>
    match genBatch customer_ids products date_ids σ s n with
    | .error e => ⟨acc, some e⟩
    | .ok b =>
      if insertFails (s / 5000) then ⟨acc, some .insertFailure⟩
      else runBatches customer_ids products date_ids σ insertFails n rest (acc ++ [b])

/-- The dimension keys visible in the warehouse when the run starts:
the `customer_id` column, the `products` table as `(product_id, price)`
pairs, and the `date_id` column. -/
structure DB where
  customers : List ℕ
  products : List (ℕ × ℚ)
  dates : List ℕ
  deriving Repr

/-- `DataLoader.generate_and_load_transactions`: fetch the three key sets,
then generate and load `num_transactions` fact rows in batches of 5000,
committing after each batch. -/
def generate_and_load_transactions (db : DB) (σ : ℕ → ℕ) (insertFails : ℕ → Bool)
    (num_transactions : ℕ) : RunResult :=
  runBatches db.customers db.products db.dates σ insertFails num_transactions
    (batchStarts 5000 num_transactions) []

/-- The list of rows of the batch starting at `s` when generation cannot
fail (all key lists nonempty). -/
def genBatchD (cids : List ℕ) (prods : List (ℕ × ℚ)) (dids : List ℕ)
    (σ : ℕ → ℕ) (s n : ℕ) : List Txn :=
  (List.range' s (min (s + 5000) n - s)).map (genRowD cids prods dids σ)

/-- The products table of the C2 counterexample: one product priced 15.05
(a two-decimal price the dimension generator can produce). -/
def cexDB : DB := ⟨[1], [(1, 301/20)], [1]⟩

/-- Draw stream for the C2 counterexample: quantity 1, discount 0.10. -/
def cexSig : ℕ → ℕ := fun j => if j = 4 then 2 else 0

/-- The single fact row the counterexample run generates:
unit_price 15.05, quantity 1, discount_pct 0.10, discount_amount 1.50,
total_amount 13.55. -/
def cexRow : Txn := ⟨1, 1, 1, 1, 301/20, 271/20, 3/2⟩

structure Date where
  year : ℕ
  month : ℕ
  day : ℕ
  deriving DecidableEq, Repr

def isLeap (y : ℕ) : Bool := (y % 4 = 0 && y % 100 != 0) || y % 400 = 0

def daysInMonth (y m : ℕ) : ℕ :=
  if m = 2 then (if isLeap y then 29 else 28)
  else if m = 4 ∨ m = 6 ∨ m = 9 ∨ m = 11 then 30
  else 31

def nextDay (d : Date) : Date :=
  if d.day < daysInMonth d.year d.month then ⟨d.year, d.month, d.day + 1⟩
  else if d.month < 12 then ⟨d.year, d.month + 1, 1⟩
  else ⟨d.year + 1, 1, 1⟩

def prevDay (d : Date) : Date :=
  if 1 < d.day then ⟨d.year, d.month, d.day - 1⟩
  else if 1 < d.month then ⟨d.year, d.month - 1, daysInMonth d.year (d.month - 1)⟩
  else ⟨d.year - 1, 12, 31⟩

def toKey (d : Date) : ℕ := 10000 * d.year + 100 * d.month + d.day

def dayOfYear (d : Date) : ℕ :=
  ((List.range (d.month - 1)).map (fun k => daysInMonth d.year (k + 1))).sum + d.day

def absDay (d : Date) : ℕ :=
  365 * (d.year - 1) + (d.year - 1) / 4 + (d.year - 1) / 400
    - (d.year - 1) / 100 + dayOfYear d

def dow0 (d : Date) : ℕ := (absDay d + 6) % 7

def isoP (y : ℕ) : ℕ := (y + y / 4 + y / 400 - y / 100) % 7

def isoWeeksInYear (y : ℕ) : ℕ := if isoP y = 4 ∨ isoP (y - 1) = 3 then 53 else 52

def isoWeek (d : Date) : ℕ :=
  let dw := dow0 d + 1
  if dayOfYear d + 10 < dw + 7 then isoWeeksInYear (d.year - 1)
  else
    let w := (dayOfYear d + 10 - dw) / 7
    if w = 53 ∧ isoWeeksInYear d.year = 52 then 1 else w

structure DateRow where
  date_value : Date
  year : ℕ
  quarter : ℕ
  month : ℕ
  day : ℕ
  day_of_week : ℕ
  week_of_year : ℕ
  is_weekend : Bool
  deriving DecidableEq, Repr

def mkDateRow (d : Date) : DateRow :=
  { date_value := d
    year := d.year
    quarter := (d.month + 2) / 3
    month := d.month
    day := d.day
    day_of_week := dow0 d + 1
    week_of_year := isoWeek d
    is_weekend := decide (5 ≤ dow0 d) }

def startDate : Date := ⟨2023, 1, 1⟩
def endDate : Date := ⟨2024, 12, 31⟩

def dateRangeAux : ℕ → Date → Date → List Date
  | 0, _, _ => []
  | fuel + 1, cur, last => if toKey cur ≤ toKey last then cur :: dateRangeAux fuel (nextDay cur) last else []

def date_range : List Date := dateRangeAux 1000 startDate endDate

def generate_date_dimension : List DateRow := date_range.map mkDateRow

/-- Weak well-formedness of a date, enough to reason about ordering. -/
def dateValid (d : Date) : Prop :=
  1 ≤ d.month ∧ d.month ≤ 12 ∧ 1 ≤ d.day ∧ d.day ≤ 31

/-- Fixed name/place corpora standing in for the Faker library's data:
draws select uniformly from them.  The concrete entries are irrelevant to
every property proved here; what matters is that each primitive is a pure
function of the raw draw (and, for `date_between`, of the current day). -/
def firstNames : List String := ["Alice", "Robert", "Maria", "John", "Susan", "David"]

def lastNames : List String := ["Smith", "Johnson", "Brown", "Garcia", "Miller", "Davis"]

def cityNames : List String := ["Springfield", "Riverside", "Franklin", "Greenville"]

def stateAbbrs : List String := ["CA", "TX", "NY", "FL", "IL", "PA", "OH", "GA"]

def customerSegments : List String := ["Premium", "Standard", "Basic", "VIP"]

/-- Models `fake.email()`: a random local part over a fixed domain. -/
def fakeEmail (r : ℕ) : String := "user" ++ toString (r % 100000) ++ "@example.com"

/-- Models `fake.phone_number()[:20]`: a random digit string truncated to
20 characters. -/
def fakePhone (r : ℕ) : String := ("555-" ++ toString (r % 10000000)).take 20

/-- The calendar day `k` days before `d`. -/
def dateMinusDays (d : Date) (k : ℕ) : Date := prevDay^[k] d

/-- One row of the customer dimension file. -/
structure Customer where
  first_name : String
  last_name : String
  email : String
  phone : String
  city : String
  state : String
  country : String
  customer_segment : String
  registration_date : Date
  deriving DecidableEq, Repr

/-- One customer of `generate_customers`: eight draws per customer; the
registration date models `fake.date_between(start_date=-1y,
end_date=today)` — a day within the last year BEFORE THE CURRENT RUN DAY,
so it depends on the wall clock, not only on the seed. -/
def mkCustomer (σ : ℕ → ℕ) (today : Date) (i : ℕ) : Customer :=
  { first_name := firstNames.getD (σ (8 * i) % firstNames.length) ""
    last_name := lastNames.getD (σ (8 * i + 1) % lastNames.length) ""
    email := fakeEmail (σ (8 * i + 2))
    phone := fakePhone (σ (8 * i + 3))
    city := cityNames.getD (σ (8 * i + 4) % cityNames.length) ""
    state := stateAbbrs.getD (σ (8 * i + 5) % stateAbbrs.length) ""
    country := "USA"
    customer_segment := customerSegments.getD (σ (8 * i + 6) % customerSegments.length) ""
    registration_date := dateMinusDays today (σ (8 * i + 7) % 366) }

/-- `generate_customers`: customers generated in batches of 1000 and
concatenated in order. -/
def generate_customers (num : ℕ) (σ : ℕ → ℕ) (today : Date) : List Customer :=
  ((batchStarts 1000 num).map
    (fun s => (List.range' s (min (s + 1000) num - s)).map (mkCustomer σ today))).flatten

/-- The fixed category taxonomy of `generate_products`. -/
def productCategories : List (String × List String) :=
  [("Electronics", ["Smartphones", "Laptops", "Headphones"]),
   ("Clothing", ["Shirts", "Pants", "Shoes"]),
   ("Home", ["Furniture", "Appliances", "Decor"]),
   ("Books", ["Fiction", "Non-Fiction", "Educational"]),
   ("Sports", ["Equipment", "Apparel", "Accessories"])]

def brands : List String := ["BrandA", "BrandB", "BrandC", "Generic"]

/-- One row of the product dimension file. -/
structure Product where
  product_name : String
  category : String
  subcategory : String
  brand : String
  price : ℚ
  cost : ℚ
  deriving DecidableEq, Repr

/-- One product of `generate_products`: category, subcategory of that
category, brand, cost uniform in [10, 200] rounded to 2 decimals, price =
cost times a uniform markup in [1.5, 2.5], rounded to 2 decimals. -/
def mkProduct (τ : ℕ → ℕ) (i : ℕ) : Product :=
  let cat := productCategories.getD (τ (5 * i) % productCategories.length) ("", [])
  let subcategory := cat.2.getD (τ (5 * i + 1) % cat.2.length) ""
  let brand := brands.getD (τ (5 * i + 2) % brands.length) ""
  let cost := round2 (10 + ((τ (5 * i + 3) % 19001 : ℕ) : ℚ) / 100)
  let price := round2 (cost * (3/2 + ((τ (5 * i + 4) % 1001 : ℕ) : ℚ) / 1000))
  { product_name := brand ++ " " ++ subcategory ++ " " ++ toString (i + 1)
    category := cat.1
    subcategory := subcategory
    brand := brand
    price := price
    cost := cost }

/-- `generate_products`: a plain loop over the requested count. -/
def generate_products (num : ℕ) (τ : ℕ → ℕ) : List Product :=
  (List.range num).map (mkProduct τ)

def pad2 (n : ℕ) : String := if n < 10 then "0" ++ toString n else toString n

/-- ISO date rendering, as pandas writes `datetime.date` values. -/
def dateCsv (d : Date) : String :=
  toString d.year ++ "-" ++ pad2 d.month ++ "-" ++ pad2 d.day

def boolCsv (b : Bool) : String := if b then "True" else "False"

/-- Injective rendering of an exact rational money amount. -/
def ratCsv (q : ℚ) : String := toString q.num ++ "/" ++ toString q.den

def csvLine (fields : List String) : String := String.intercalate "," fields

def dateRowCsv (r : DateRow) : String :=
  csvLine [dateCsv r.date_value, toString r.year, toString r.quarter, toString r.month,
    toString r.day, toString r.day_of_week, toString r.week_of_year, boolCsv r.is_weekend]

def customerCsv (c : Customer) : String :=
  csvLine [c.first_name, c.last_name, c.email, c.phone, c.city, c.state, c.country,
    c.customer_segment, dateCsv c.registration_date]

def productCsv (p : Product) : String :=
  csvLine [p.product_name, p.category, p.subcategory, p.brand, ratCsv p.price, ratCsv p.cost]

def datesHeader : String :=
  "date_value,year,quarter,month,day,day_of_week,week_of_year,is_weekend"

def customersHeader : String :=
  "first_name,last_name,email,phone,city,state,country,customer_segment,registration_date"

def productsHeader : String := "product_name,category,subcategory,brand,price,cost"

/-- The bytes of `data/date_dimension.csv`. -/
def datesFile : String :=
  String.intercalate "\n" (datesHeader :: generate_date_dimension.map dateRowCsv)

/-- The bytes of `data/customers.csv` for a run on day `today`. -/
def customersFile (num : ℕ) (σ : ℕ → ℕ) (today : Date) : String :=
  String.intercalate "\n" (customersHeader :: (generate_customers num σ today).map customerCsv)

/-- The bytes of `data/products.csv`. -/
def productsFile (num : ℕ) (τ : ℕ → ℕ) : String :=
  String.intercalate "\n" (productsHeader :: (generate_products num τ).map productCsv)

/-- A concrete deterministic pseudo-random stream derived from a seed,
standing in for the seeded global numpy/Faker generator state. -/
def prng (seed : ℕ) : ℕ → ℕ := fun n => (seed + n * 2654435761) % 4294967296

/-- The three dimension files one end-to-end generator run writes. -/
structure GenOutput where
  dates : String
  customers : String
  products : String
  deriving DecidableEq, Repr

/-- The `generate_data.py` entry point: generate the date dimension (no
randomness), then the customers (consuming the stream, and reading the
current day), then the products (consuming the stream where the customers
left off). -/
def runGenerator (num_customers num_products seed : ℕ) (today : Date) : GenOutput :=
  ⟨datesFile,
   customersFile num_customers (prng seed) today,
   productsFile num_products (fun j => prng seed (8 * num_customers + j))⟩

/-- The three dimension CSV files read by `load_dimension_tables`. -/
structure DimFiles where
  dates : List DateRow
  customers : List Customer
  products : List Product
  deriving DecidableEq, Repr

/-- The committed contents of the three dimension tables. -/
structure DimState where
  dates : List DateRow
  customers : List Customer
  products : List Product
  deriving DecidableEq, Repr

def emptyDims : DimState := ⟨[], [], []⟩

/-- Row-by-row insertion of `count` rows starting at index `i`:
`fails k` models a store error (constraint violation, connection drop)
while inserting row `k`; the loop raises at the first failing row. -/
def insertRows (fails : ℕ → Bool) : ℕ → ℕ → Except LoadErr Unit
  | _, 0 => .ok ()
  | i, r + 1 => if fails i then .error .insertFailure else insertRows fails (i + 1) r

/-- `DataLoader.load_dimension_tables`: on one connection, insert every
date row, then every customer row, then every product row, then commit
once.  An exception anywhere makes the `with` block roll back the single
open transaction, so nothing at all is committed; only if all inserts
succeed does the final commit publish all three dimensions. -/
def load_dimension_tables (files : DimFiles) (fd fc fp : ℕ → Bool) :
    DimState × Option LoadErr :=
  match insertRows fd 0 files.dates.length with
  | .error e => (emptyDims, some e)
  | .ok _ =>
    match insertRows fc 0 files.customers.length with
    | .error e => (emptyDims, some e)
    | .ok _ =>
      match insertRows fp 0 files.products.length with
      | .error e => (emptyDims, some e)
      | .ok _ => (⟨files.dates, files.customers, files.products⟩, none)

/-- A concrete one-row-per-dimension file set for the C7 witness. -/
def c7files : DimFiles :=
  ⟨[mkDateRow startDate], [mkCustomer (fun _ => 0) startDate 0], [mkProduct (fun _ => 0) 0]⟩

/-- The six canned reports of the analytics entry point, in the order
`main` runs them. -/
inductive Report where
  | monthly
  | topCustomers
  | topProducts
  | categoryMix
  | segmentMix
  | weekendWeekday
  deriving DecidableEq, Repr

def reportOrder : List Report :=
  [.monthly, .topCustomers, .topProducts, .categoryMix, .segmentMix, .weekendWeekday]

/-- Run reports in order inside one `try` block: `fails r` models a query
failure in report `r`; the first failure raises out of the whole block.
Returns the reports attempted (in order, including the failing one) and
the failing report, if any. -/
def runReports (fails : Report → Bool) : List Report → List Report × Option Report
  | [] => ([], none)
  | r :: rest =>
    if fails r then ([r], some r)
    else
      let (a, e) := runReports fails rest
      (r :: a, e)

/-- `analytics.main`: all six reports inside a single `try`/`except`. -/
def analytics_main (fails : Report → Bool) : List Report × Option Report :=
  runReports fails reportOrder

theorem rhe_intCast (m : ℤ) : rhe (m : ℚ) = m := by
  simp [rhe, Int.floor_intCast]

theorem round2_div_hundred (m : ℤ) : round2 ((m : ℚ) / 100) = (m : ℚ) / 100 := by
  have h : ((m : ℚ) / 100) * 100 = (m : ℚ) := by
    field_simp
  rw [round2, h, rhe_intCast]

theorem round2_cents (x : ℚ) : ∃ k : ℤ, round2 x = (k : ℚ) / 100 :=
  ⟨rhe (x * 100), rfl⟩

theorem getD_mem {α : Type} (l : List α) (r : ℕ) (d : α) (h : l ≠ []) :
    l.getD (r % l.length) d ∈ l := by
  have hlen : 0 < l.length := List.length_pos.mpr h
  have hlt : r % l.length < l.length := Nat.mod_lt _ hlen
  rw [List.getD_eq_getElem l d hlt]
  exact List.getElem_mem hlt

theorem lookupPrice_mem {pid : ℕ} {l : List (ℕ × ℚ)} {p : ℚ}
    (h : lookupPrice pid l = some p) : (pid, p) ∈ l := by
  induction l with
  | nil => simp [lookupPrice] at h
  | cons hd tl ih =>
    obtain ⟨k, v⟩ := hd
    by_cases hk : k = pid
    · subst hk
      simp [lookupPrice] at h
      simp [h]
    · simp only [lookupPrice, if_neg hk] at h
      exact List.mem_cons_of_mem _ (ih h)

theorem lookupPrice_isSome_of_mem {pid : ℕ} {l : List (ℕ × ℚ)}
    (h : pid ∈ l.map Prod.fst) : ∃ p, lookupPrice pid l = some p := by
  induction l with
  | nil => simp at h
  | cons hd tl ih =>
    obtain ⟨k, v⟩ := hd
    by_cases hk : k = pid
    · exact ⟨v, by simp [lookupPrice, hk]⟩
    · rw [List.map_cons, List.mem_cons] at h
      rcases h with h | h
      · exact absurd h.symm hk
      · obtain ⟨p, hp⟩ := ih h
        exact ⟨p, by simp only [lookupPrice, if_neg hk, hp]⟩

theorem choice_ok {α : Type} (l : List α) (r : ℕ) (d : α) (h : l ≠ []) :
    choice l r = .ok (l.getD (r % l.length) d) := by
  have hlen : l.length ≠ 0 := by simpa [List.length_eq_zero] using h
  have hlt : r % l.length < l.length := Nat.mod_lt _ (Nat.pos_of_ne_zero hlen)
  unfold choice
  rw [dif_neg hlen]
  congr 1
  rw [List.getD_eq_getElem l d hlt]
  rfl

theorem genRow_eq_ok (cids : List ℕ) (prods : List (ℕ × ℚ)) (dids : List ℕ)
    (σ : ℕ → ℕ) (i : ℕ) (hc : cids ≠ []) (hp : prods ≠ []) (hd : dids ≠ []) :
    genRow cids prods dids σ i = .ok (genRowD cids prods dids σ i) := by
  have hpk : prods.map Prod.fst ≠ [] := by
    simpa using hp
  have hdc : discountChoices ≠ [] := by simp [discountChoices]
  have hmem : (prods.map Prod.fst).getD (σ (5 * i + 1) % (prods.map Prod.fst).length) 0
      ∈ prods.map Prod.fst := getD_mem _ _ _ hpk
  obtain ⟨p, hp'⟩ := lookupPrice_isSome_of_mem hmem
  simp only [genRow, genRowD, choice_ok cids _ 0 hc, choice_ok (prods.map Prod.fst) _ 0 hpk,
    choice_ok dids _ 0 hd, choice_ok discountChoices _ 0 hdc, hp', Except.bind, bind]
  simp [hp']

theorem mapME_ok_of_all_ok {α β : Type} (f : α → Except LoadErr β) (g : α → β) :
    ∀ l : List α, (∀ a ∈ l, f a = .ok (g a)) → mapME f l = .ok (l.map g)
  | [], _ => by simp [mapME]
  | a :: l, h => by
    have ha : f a = .ok (g a) := h a (by simp)
    have hl : mapME f l = .ok (l.map g) :=
      mapME_ok_of_all_ok f g l (fun x hx => h x (by simp [hx]))
    simp [mapME, ha, hl, Except.bind, bind]

theorem mapME_ok_mem {α β : Type} (f : α → Except LoadErr β) :
    ∀ {l : List α} {b : List β}, mapME f l = .ok b → ∀ t ∈ b, ∃ a ∈ l, f a = .ok t := by
  intro l
  induction l with
  | nil =>
    intro b hb t ht
    simp [mapME] at hb
    subst hb
    simp at ht
  | cons a l ih =>
    intro b hb t ht
    cases hfa : f a with
    | error e => simp [mapME, hfa, Except.bind, bind] at hb
    | ok x =>
      cases hfl : mapME f l with
      | error e => simp [mapME, hfa, hfl, Except.bind, bind] at hb
      | ok xs =>
        simp [mapME, hfa, hfl, Except.bind, bind] at hb
        subst hb
        rcases List.mem_cons.mp ht with h | h
        · exact ⟨a, by simp, by rw [hfa, h]⟩
        · obtain ⟨a', ha', hfa'⟩ := ih hfl t h
          exact ⟨a', by simp [ha'], hfa'⟩

theorem genBatch_eq_ok (cids : List ℕ) (prods : List (ℕ × ℚ)) (dids : List ℕ)
    (σ : ℕ → ℕ) (s n : ℕ) (hc : cids ≠ []) (hp : prods ≠ []) (hd : dids ≠ []) :
    genBatch cids prods dids σ s n = .ok (genBatchD cids prods dids σ s n) :=
  mapME_ok_of_all_ok _ _ _ (fun a _ => genRow_eq_ok cids prods dids σ a hc hp hd)

theorem runBatches_ok (cids : List ℕ) (prods : List (ℕ × ℚ)) (dids : List ℕ)
    (σ : ℕ → ℕ) (f : ℕ → Bool) (n : ℕ)
    (hc : cids ≠ []) (hp : prods ≠ []) (hd : dids ≠ []) :
    ∀ (starts : List ℕ) (acc : List (List Txn)),
      (∀ s ∈ starts, f (s / 5000) = false) →
      runBatches cids prods dids σ f n starts acc =
        ⟨acc ++ starts.map (fun s => genBatchD cids prods dids σ s n), none⟩
  | [], acc, _ => by simp [runBatches]
  | s :: rest, acc, hf => by
    rw [runBatches, genBatch_eq_ok cids prods dids σ s n hc hp hd]
    rw [hf s (by simp)]
    simp only [Bool.false_eq_true, if_false]
    rw [runBatches_ok cids prods dids σ f n hc hp hd rest
      (acc ++ [genBatchD cids prods dids σ s n]) (fun x hx => hf x (by simp [hx]))]
    simp

theorem runBatches_mem (cids : List ℕ) (prods : List (ℕ × ℚ)) (dids : List ℕ)
    (σ : ℕ → ℕ) (f : ℕ → Bool) (n : ℕ) (P : Txn → Prop)
    (hbatch : ∀ s b, genBatch cids prods dids σ s n = .ok b → ∀ t ∈ b, P t) :
    ∀ (starts : List ℕ) (acc : List (List Txn)),
      (∀ b ∈ acc, ∀ t ∈ b, P t) →
      ∀ b ∈ (runBatches cids prods dids σ f n starts acc).committed, ∀ t ∈ b, P t
  | [], acc, hacc => by
    simpa [runBatches] using hacc
  | s :: rest, acc, hacc => by
    rw [runBatches]
    cases hgb : genBatch cids prods dids σ s n with
    | error e => simpa using hacc
    | ok b =>
      by_cases hf : f (s / 5000) = true
      · simp only [hf, if_true]
        simpa using hacc
      · simp only [Bool.not_eq_true] at hf
        simp only [hf, Bool.false_eq_true, if_false]
        refine runBatches_mem cids prods dids σ f n P hbatch rest (acc ++ [b]) ?_
        intro b' hb' t ht
        rcases List.mem_append.mp hb' with h | h
        · exact hacc b' h t ht
        · simp at h
          subst h
          exact hbatch s b' hgb t ht

theorem runBatches_fail (cids : List ℕ) (prods : List (ℕ × ℚ)) (dids : List ℕ)
    (σ : ℕ → ℕ) (f : ℕ → Bool) (n j : ℕ)
    (hc : cids ≠ []) (hp : prods ≠ []) (hd : dids ≠ []) (hfj : f j = true)
    (hjn : j * 5000 < n) :
    ∀ (fuel s c : ℕ) (acc : List (List Txn)), s = c * 5000 → c ≤ j →
      (∀ i, c ≤ i → i < j → f i = false) → n - s ≤ fuel * 5000 →
      runBatches cids prods dids σ f n (batchStartsAux 5000 fuel s n) acc =
        ⟨acc ++ (List.range' c (j - c)).map
            (fun b => genBatchD cids prods dids σ (b * 5000) n),
          some .insertFailure⟩
  | 0, s, c, acc, hs, hcj, _, hfuel => by
    exfalso
    have : s < n := by
      have : s ≤ j * 5000 := by
        rw [hs]
        exact Nat.mul_le_mul_right _ hcj
      omega
    omega
  | fuel + 1, s, c, acc, hs, hcj, hfirst, hfuel => by
    have hsn : s < n := by
      have : s ≤ j * 5000 := by
        rw [hs]
        exact Nat.mul_le_mul_right _ hcj
      omega
    rw [batchStartsAux, if_pos hsn, runBatches,
      genBatch_eq_ok cids prods dids σ s n hc hp hd]
    have hdiv : s / 5000 = c := by
      rw [hs]
      exact Nat.mul_div_cancel c (by norm_num)
    rw [hdiv]
    rcases Nat.lt_or_ge c j with hlt | hge
    · rw [hfirst c le_rfl hlt]
      simp only [Bool.false_eq_true, if_false]
      rw [runBatches_fail cids prods dids σ f n j hc hp hd hfj hjn fuel (s + 5000) (c + 1)
        (acc ++ [genBatchD cids prods dids σ s n]) (by omega) (by omega)
        (fun i hi hij => hfirst i (by omega) hij) (by omega)]
      have hrange : List.range' c (j - c) = c :: List.range' (c + 1) (j - c - 1) := by
        have h1 : j - c = (j - c - 1) + 1 := by omega
        rw [h1, List.range'_succ]
        simp
      have h3 : j - (c + 1) = j - c - 1 := by omega
      rw [hrange, h3]
      simp [hs]
    · have hcj' : c = j := by omega
      subst hcj'
      rw [hfj]
      simp only [if_true]
      simp

theorem joinRanges (B : ℕ) (hB : 0 < B) :
    ∀ (fuel s n : ℕ), n - s ≤ fuel * B →
      ((batchStartsAux B fuel s n).map
          (fun st => List.range' st (min (st + B) n - st))).flatten
        = List.range' s (n - s)
  | 0, s, n, hfuel => by
    have : n - s = 0 := by omega
    simp [batchStartsAux, this]
  | fuel + 1, s, n, hfuel => by
    by_cases hsn : s < n
    · rw [batchStartsAux, if_pos hsn]
      simp only [List.map_cons, List.flatten_cons]
      have h4 : (fuel + 1) * B = fuel * B + B := by ring
      rw [joinRanges B hB fuel (s + B) n (by omega)]
      rcases Nat.lt_or_ge n (s + B) with hle | hlt
      · have hmin : min (s + B) n = n := by omega
        have h0 : n - (s + B) = 0 := by omega
        rw [hmin, h0]
        simp
      · have hmin : min (s + B) n = s + B := by omega
        rw [hmin]
        have : s + B - s = B := by omega
        rw [this]
        have happ := List.range'_append s B (n - (s + B)) 1
        simp only [one_mul, Nat.mul_one] at happ
        have h2 : n - (s + B) + B = n - s := by omega
        rw [h2] at happ
        simpa using happ
    · rw [batchStartsAux, if_neg hsn]
      have : n - s = 0 := by omega
      simp [this]

theorem mkTxn_fields (cid pid did q : ℕ) (up pct : ℚ) :
    (mkTxn cid pid did q up pct).customer_id = cid ∧
    (mkTxn cid pid did q up pct).product_id = pid ∧
    (mkTxn cid pid did q up pct).date_id = did ∧
    (mkTxn cid pid did q up pct).quantity = q ∧
    (mkTxn cid pid did q up pct).unit_price = up ∧
    (mkTxn cid pid did q up pct).discount_amount = round2 (up * (q : ℚ) * pct) ∧
    (mkTxn cid pid did q up pct).total_amount =
      round2 (up * (q : ℚ) - round2 (up * (q : ℚ) * pct)) := by
  simp [mkTxn]

theorem mkTxn_money (cid pid did q : ℕ) (up pct : ℚ)
    (hup : ∃ m : ℤ, up = (m : ℚ) / 100) :
    (mkTxn cid pid did q up pct).discount_amount =
      round2 ((mkTxn cid pid did q up pct).unit_price *
        ((mkTxn cid pid did q up pct).quantity : ℚ) * pct) ∧
    (mkTxn cid pid did q up pct).total_amount =
      (mkTxn cid pid did q up pct).unit_price *
        ((mkTxn cid pid did q up pct).quantity : ℚ) -
        (mkTxn cid pid did q up pct).discount_amount ∧
    (mkTxn cid pid did q up pct).total_amount +
        (mkTxn cid pid did q up pct).discount_amount =
      round2 ((mkTxn cid pid did q up pct).unit_price *
        ((mkTxn cid pid did q up pct).quantity : ℚ)) := by
  obtain ⟨m, rfl⟩ := hup
  obtain ⟨h1, h2, h3, h4, h5, h6, h7⟩ := mkTxn_fields cid pid did q ((m : ℚ) / 100) pct
  rw [h4, h5, h6, h7]
  have htb : (m : ℚ) / 100 * (q : ℚ) = ((m * q : ℤ) : ℚ) / 100 := by
    push_cast
    ring
  obtain ⟨c, hc⟩ := round2_cents ((m : ℚ) / 100 * (q : ℚ) * pct)
  have hsub : (m : ℚ) / 100 * (q : ℚ) - round2 ((m : ℚ) / 100 * (q : ℚ) * pct)
      = ((m * q - c : ℤ) : ℚ) / 100 := by
    rw [hc, htb]
    push_cast
    ring
  have hta : round2 ((m : ℚ) / 100 * (q : ℚ) - round2 ((m : ℚ) / 100 * (q : ℚ) * pct))
      = (m : ℚ) / 100 * (q : ℚ) - round2 ((m : ℚ) / 100 * (q : ℚ) * pct) := by
    rw [hsub, round2_div_hundred, ← hsub]
  refine ⟨rfl, hta, ?_⟩
  rw [hta, htb, round2_div_hundred, ← htb]
  ring

theorem genRowD_mem (cids : List ℕ) (prods : List (ℕ × ℚ)) (dids : List ℕ)
    (σ : ℕ → ℕ) (i : ℕ) (hc : cids ≠ []) (hp : prods ≠ []) (hd : dids ≠ []) :
    (genRowD cids prods dids σ i).customer_id ∈ cids ∧
    (genRowD cids prods dids σ i).product_id ∈ prods.map Prod.fst ∧
    (genRowD cids prods dids σ i).date_id ∈ dids := by
  have hpk : prods.map Prod.fst ≠ [] := by simpa using hp
  simp only [genRowD, mkTxn]
  exact ⟨getD_mem _ _ _ hc, getD_mem _ _ _ hpk, getD_mem _ _ _ hd⟩

theorem genRowD_price_cents (cids : List ℕ) (prods : List (ℕ × ℚ)) (dids : List ℕ)
    (σ : ℕ → ℕ) (i : ℕ)
    (h2 : ∀ pr ∈ prods, ∃ m : ℤ, pr.2 = (m : ℚ) / 100) :
    ∃ m : ℤ, (genRowD cids prods dids σ i).unit_price = (m : ℚ) / 100 := by
  simp only [genRowD, mkTxn]
  cases hl : lookupPrice ((prods.map Prod.fst).getD
      (σ (5 * i + 1) % (prods.map Prod.fst).length) 0) prods with
  | none => exact ⟨0, by simp⟩
  | some p =>
    obtain ⟨m, hm⟩ := h2 _ (lookupPrice_mem hl)
    refine ⟨m, ?_⟩
    simp only [Option.getD_some]
    exact hm

theorem genRowD_money (cids : List ℕ) (prods : List (ℕ × ℚ)) (dids : List ℕ)
    (σ : ℕ → ℕ) (i : ℕ)
    (h2 : ∀ pr ∈ prods, ∃ m : ℤ, pr.2 = (m : ℚ) / 100) :
    (1 ≤ (genRowD cids prods dids σ i).quantity ∧
      (genRowD cids prods dids σ i).quantity ≤ 5) ∧
    (∃ pct ∈ discountChoices,
      (genRowD cids prods dids σ i).discount_amount =
        round2 ((genRowD cids prods dids σ i).unit_price *
          ((genRowD cids prods dids σ i).quantity : ℚ) * pct) ∧
      (genRowD cids prods dids σ i).total_amount =
        (genRowD cids prods dids σ i).unit_price *
          ((genRowD cids prods dids σ i).quantity : ℚ) -
          (genRowD cids prods dids σ i).discount_amount) ∧
    (genRowD cids prods dids σ i).total_amount +
        (genRowD cids prods dids σ i).discount_amount =
      round2 ((genRowD cids prods dids σ i).unit_price *
        ((genRowD cids prods dids σ i).quantity : ℚ)) := by
  have hup : ∃ m : ℤ, (genRowD cids prods dids σ i).unit_price = (m : ℚ) / 100 :=
    genRowD_price_cents cids prods dids σ i h2
  -- fold genRowD into a single mkTxn application
  rw [genRowD] at hup ⊢
  obtain ⟨hm⟩ := mkTxn_money (cids.getD (σ (5 * i) % cids.length) 0)
    ((prods.map Prod.fst).getD (σ (5 * i + 1) % (prods.map Prod.fst).length) 0)
    (dids.getD (σ (5 * i + 2) % dids.length) 0)
    (1 + σ (5 * i + 3) % 5)
    ((lookupPrice ((prods.map Prod.fst).getD
        (σ (5 * i + 1) % (prods.map Prod.fst).length) 0) prods).getD 0)
    (discountChoices.getD (σ (5 * i + 4) % discountChoices.length) 0)
    (by simpa using hup)
  rename_i hrest
  obtain ⟨hta, hsum⟩ := hrest
  refine ⟨?_, ?_, hsum⟩
  · constructor
    · simp [mkTxn]
    · simp [mkTxn]
      omega
  · exact ⟨_, getD_mem _ _ _ (by simp [discountChoices]), hm, hta⟩

/-- Every committed row of a run (any insert-failure pattern) is a row the
per-row generator produced, so any property of generated rows holds of
every committed row. -/
theorem committed_rows (db : DB) (σ : ℕ → ℕ) (f : ℕ → Bool) (n : ℕ)
    (hc : db.customers ≠ []) (hp : db.products ≠ []) (hd : db.dates ≠ [])
    (P : Txn → Prop)
    (hP : ∀ i, P (genRowD db.customers db.products db.dates σ i)) :
    ∀ t ∈ (generate_and_load_transactions db σ f n).committed.flatten, P t := by
  intro t ht
  obtain ⟨b, hb, htb⟩ := List.mem_flatten.mp ht
  refine runBatches_mem db.customers db.products db.dates σ f n P
    ?_ (batchStarts 5000 n) [] (by simp) b hb t htb
  intro s b' hgb t' ht'
  obtain ⟨a, _, hrow⟩ := mapME_ok_mem _ hgb t' ht'
  rw [genRow_eq_ok db.customers db.products db.dates σ a hc hp hd] at hrow
  obtain rfl := (Except.ok.injEq _ _).mp hrow
  exact hP a

/-- C1: every fact row produced by `generate_and_load_transactions` draws
its `customer_id`, `product_id` and `date_id` from the key sets read from
the `customers`, `products` and `date_dimension` tables before generation
began: referential integrity holds by construction, because keys are only
sampled from the fetched key lists. -/
theorem C1_referential_integrity (db : DB) (σ : ℕ → ℕ) (f : ℕ → Bool) (n : ℕ)
    (hc : db.customers ≠ []) (hp : db.products ≠ []) (hd : db.dates ≠ []) :
    ∀ t ∈ (generate_and_load_transactions db σ f n).committed.flatten,
      t.customer_id ∈ db.customers ∧
      t.product_id ∈ db.products.map Prod.fst ∧
      t.date_id ∈ db.dates :=
  committed_rows db σ f n hc hp hd _
    (fun i => genRowD_mem db.customers db.products db.dates σ i hc hp hd)

/-- Witness for C1 at a concrete one-row run. -/
theorem C1_witness :
    (([7] : List ℕ) ≠ [] ∧ ([(3, (5 : ℚ))] : List (ℕ × ℚ)) ≠ [] ∧ ([9] : List ℕ) ≠ []) ∧
    ((⟨7, 3, 9, 1, 5, 5, 0⟩ : Txn).customer_id ∈ ([7] : List ℕ) ∧
      (⟨7, 3, 9, 1, 5, 5, 0⟩ : Txn).product_id ∈ ([(3, (5 : ℚ))] : List (ℕ × ℚ)).map Prod.fst ∧
      (⟨7, 3, 9, 1, 5, 5, 0⟩ : Txn).date_id ∈ ([9] : List ℕ)) := by
  have hrun : (generate_and_load_transactions ⟨[7], [(3, 5)], [9]⟩ (fun _ => 0)
      (fun _ => false) 1).committed.flatten = [⟨7, 3, 9, 1, 5, 5, 0⟩] := by
    have h1 : batchStarts 5000 1 = [0] := by norm_num [batchStarts, batchStartsAux]
    norm_num [generate_and_load_transactions, h1, runBatches, genBatch, genRow, mkTxn,
      choice, discountChoices, lookupPrice, List.range', mapME,
      Except.bind, bind, round2, rhe]
  refine ⟨⟨by simp, by simp, by simp⟩, ?_⟩
  exact C1_referential_integrity ⟨[7], [(3, 5)], [9]⟩ (fun _ => 0) (fun _ => false) 1
    (by simp) (by simp) (by simp) ⟨7, 3, 9, 1, 5, 5, 0⟩ (by rw [hrun]; simp)

/-- C2 counterexample: for the row generated from unit_price 15.05,
quantity 1 and sampled discount_pct 0.10, the stored `discount_amount` is
`round(15.05 * 1 * 0.10, 2) = 1.50`, but the stored `total_amount` is
13.55, while the claim's formula `round(unit_price * quantity *
(1 - discount_pct), 2) = round(13.545, 2)` gives 13.54 under the two-decimal
banker's rounding the pipeline uses: the claimed identity for
`total_amount` is false for this generated row. -/
theorem C2_counterexample :
    (generate_and_load_transactions cexDB cexSig (fun _ => false) 1).committed.flatten
      = [cexRow] ∧
    cexRow.discount_amount =
      round2 (cexRow.unit_price * (cexRow.quantity : ℚ) * (1/10)) ∧
    cexRow.total_amount ≠
      round2 (cexRow.unit_price * (cexRow.quantity : ℚ) * (1 - 1/10)) := by
  refine ⟨?_, ?_, ?_⟩
  · have h1 : batchStarts 5000 1 = [0] := by norm_num [batchStarts, batchStartsAux]
    norm_num [generate_and_load_transactions, cexDB, cexSig, cexRow, h1, runBatches,
      genBatch, genRow, mkTxn, choice, discountChoices, lookupPrice, List.range', mapME,
      Except.bind, bind, round2, rhe]
  · norm_num [cexRow, round2, rhe]
  · norm_num [cexRow, round2, rhe]

/-- C2 amended: for every generated fact row (prices in the products table
being two-decimal amounts), quantity is an integer in 1..5, discount_pct
is one of {0, 0.05, 0.10, 0.15}, the stored fields satisfy
`discount_amount = round(unit_price * quantity * discount_pct, 2)` and
`total_amount = unit_price * quantity - discount_amount` (the code rounds
`unit_price * quantity - discount_amount`, which is already exact at two
decimals; this differs from the claimed
`round(unit_price * quantity * (1 - discount_pct), 2)` at rounding ties). -/
theorem C2_amended_row_fields (db : DB) (σ : ℕ → ℕ) (f : ℕ → Bool) (n : ℕ)
    (hc : db.customers ≠ []) (hp : db.products ≠ []) (hd : db.dates ≠ [])
    (h2 : ∀ pr ∈ db.products, ∃ m : ℤ, pr.2 = (m : ℚ) / 100) :
    ∀ t ∈ (generate_and_load_transactions db σ f n).committed.flatten,
      (1 ≤ t.quantity ∧ t.quantity ≤ 5) ∧
      ∃ pct ∈ discountChoices,
        t.discount_amount = round2 (t.unit_price * (t.quantity : ℚ) * pct) ∧
        t.total_amount = t.unit_price * (t.quantity : ℚ) - t.discount_amount :=
  committed_rows db σ f n hc hp hd _
    (fun i => ⟨(genRowD_money db.customers db.products db.dates σ i h2).1,
      (genRowD_money db.customers db.products db.dates σ i h2).2.1⟩)

/-- Witness for C2's amended theorem at a concrete one-row run. -/
theorem C2_amended_witness :
    (([7] : List ℕ) ≠ [] ∧ ([(3, (5 : ℚ))] : List (ℕ × ℚ)) ≠ [] ∧ ([9] : List ℕ) ≠ [] ∧
      (∀ pr ∈ ([(3, (5 : ℚ))] : List (ℕ × ℚ)), ∃ m : ℤ, pr.2 = (m : ℚ) / 100)) ∧
    ((1 ≤ (⟨7, 3, 9, 1, 5, 5, 0⟩ : Txn).quantity ∧ (⟨7, 3, 9, 1, 5, 5, 0⟩ : Txn).quantity ≤ 5) ∧
      ∃ pct ∈ discountChoices,
        (⟨7, 3, 9, 1, 5, 5, 0⟩ : Txn).discount_amount =
          round2 ((⟨7, 3, 9, 1, 5, 5, 0⟩ : Txn).unit_price *
            ((⟨7, 3, 9, 1, 5, 5, 0⟩ : Txn).quantity : ℚ) * pct) ∧
        (⟨7, 3, 9, 1, 5, 5, 0⟩ : Txn).total_amount =
          (⟨7, 3, 9, 1, 5, 5, 0⟩ : Txn).unit_price *
            ((⟨7, 3, 9, 1, 5, 5, 0⟩ : Txn).quantity : ℚ) -
            (⟨7, 3, 9, 1, 5, 5, 0⟩ : Txn).discount_amount) := by
  have hrun : (generate_and_load_transactions ⟨[7], [(3, 5)], [9]⟩ (fun _ => 0)
      (fun _ => false) 1).committed.flatten = [⟨7, 3, 9, 1, 5, 5, 0⟩] := by
    have h1 : batchStarts 5000 1 = [0] := by norm_num [batchStarts, batchStartsAux]
    norm_num [generate_and_load_transactions, h1, runBatches, genBatch, genRow, mkTxn,
      choice, discountChoices, lookupPrice, List.range', mapME,
      Except.bind, bind, round2, rhe]
  refine ⟨⟨by simp, by simp, by simp, ?_⟩, ?_⟩
  · intro pr hpr
    simp at hpr
    exact ⟨500, by rw [hpr]; norm_num⟩
  · refine C2_amended_row_fields ⟨[7], [(3, 5)], [9]⟩ (fun _ => 0) (fun _ => false) 1
      (by simp) (by simp) (by simp) ?_ ⟨7, 3, 9, 1, 5, 5, 0⟩ (by rw [hrun]; simp)
    intro pr hpr
    simp at hpr
    exact ⟨500, by rw [hpr]; norm_num⟩

/-- C3: for every generated fact row (prices in the products table being
two-decimal amounts), `total_amount + discount_amount` equals
`round(unit_price * quantity, 2)` exactly (hence within any rounding
tolerance), and `discount_amount = round(unit_price * quantity *
discount_pct, 2)` for the discount percentage sampled for the row. -/
theorem C3_amount_identity (db : DB) (σ : ℕ → ℕ) (f : ℕ → Bool) (n : ℕ)
    (hc : db.customers ≠ []) (hp : db.products ≠ []) (hd : db.dates ≠ [])
    (h2 : ∀ pr ∈ db.products, ∃ m : ℤ, pr.2 = (m : ℚ) / 100) :
    ∀ t ∈ (generate_and_load_transactions db σ f n).committed.flatten,
      t.total_amount + t.discount_amount =
        round2 (t.unit_price * (t.quantity : ℚ)) ∧
      ∃ pct ∈ discountChoices,
        t.discount_amount = round2 (t.unit_price * (t.quantity : ℚ) * pct) :=
  committed_rows db σ f n hc hp hd _
    (fun i => ⟨(genRowD_money db.customers db.products db.dates σ i h2).2.2,
      by
        obtain ⟨pct, hmem, hda, _⟩ :=
          (genRowD_money db.customers db.products db.dates σ i h2).2.1
        exact ⟨pct, hmem, hda⟩⟩)

/-- Witness for C3 at a concrete one-row run. -/
theorem C3_witness :
    (([7] : List ℕ) ≠ [] ∧ ([(3, (5 : ℚ))] : List (ℕ × ℚ)) ≠ [] ∧ ([9] : List ℕ) ≠ [] ∧
      (∀ pr ∈ ([(3, (5 : ℚ))] : List (ℕ × ℚ)), ∃ m : ℤ, pr.2 = (m : ℚ) / 100)) ∧
    ((⟨7, 3, 9, 1, 5, 5, 0⟩ : Txn).total_amount + (⟨7, 3, 9, 1, 5, 5, 0⟩ : Txn).discount_amount =
        round2 ((⟨7, 3, 9, 1, 5, 5, 0⟩ : Txn).unit_price *
          ((⟨7, 3, 9, 1, 5, 5, 0⟩ : Txn).quantity : ℚ)) ∧
      ∃ pct ∈ discountChoices,
        (⟨7, 3, 9, 1, 5, 5, 0⟩ : Txn).discount_amount =
          round2 ((⟨7, 3, 9, 1, 5, 5, 0⟩ : Txn).unit_price *
            ((⟨7, 3, 9, 1, 5, 5, 0⟩ : Txn).quantity : ℚ) * pct)) := by
  have hrun : (generate_and_load_transactions ⟨[7], [(3, 5)], [9]⟩ (fun _ => 0)
      (fun _ => false) 1).committed.flatten = [⟨7, 3, 9, 1, 5, 5, 0⟩] := by
    have h1 : batchStarts 5000 1 = [0] := by norm_num [batchStarts, batchStartsAux]
    norm_num [generate_and_load_transactions, h1, runBatches, genBatch, genRow, mkTxn,
      choice, discountChoices, lookupPrice, List.range', mapME,
      Except.bind, bind, round2, rhe]
  refine ⟨⟨by simp, by simp, by simp, ?_⟩, ?_⟩
  · intro pr hpr
    simp at hpr
    exact ⟨500, by rw [hpr]; norm_num⟩
  · refine C3_amount_identity ⟨[7], [(3, 5)], [9]⟩ (fun _ => 0) (fun _ => false) 1
      (by simp) (by simp) (by simp) ?_ ⟨7, 3, 9, 1, 5, 5, 0⟩ (by rw [hrun]; simp)
    intro pr hpr
    simp at hpr
    exact ⟨500, by rw [hpr]; norm_num⟩

theorem flatten_full_ranges (B : ℕ) (hB : 0 < B) :
    ∀ (j n : ℕ), j * B ≤ n →
      ((List.range' 0 j).map
          (fun b => List.range' (b * B) (min (b * B + B) n - b * B))).flatten
        = List.range (j * B)
  | 0, n, _ => by simp
  | j + 1, n, hjn => by
    have hj : j * B ≤ n := by
      have hx : (j + 1) * B = j * B + B := by ring
      omega
    have hconcat : List.range' 0 (j + 1) = List.range' 0 j ++ [j] := by
      have := @List.range'_concat 1 0 j
      simpa using this
    rw [hconcat]
    simp only [List.map_append, List.flatten_append, List.map_cons, List.map_nil,
      List.flatten_cons, List.flatten_nil]
    rw [flatten_full_ranges B hB j n hj]
    have hmin : min (j * B + B) n = j * B + B := by
      have hx : (j + 1) * B = j * B + B := by ring
      omega
    rw [hmin]
    have hlen : j * B + B - j * B = B := by omega
    rw [hlen]
    rw [List.range_eq_range', List.range_eq_range']
    have happ := List.range'_append 0 (j * B) B 1
    simp only [one_mul, zero_add] at happ
    have hsum : B + j * B = (j + 1) * B := by ring
    rw [← hsum]
    rw [← happ]
    simp

/-- C4: a run with no store failures generates and inserts exactly
`num_transactions` rows, processed in consecutive batches of at most 5000
rows, each committed before the next begins (the committed batches
partition the generated row sequence in order); `num_transactions = 0`
performs zero batches and zero insertions and succeeds. -/
theorem C4_exact_count_batching (db : DB) (σ : ℕ → ℕ) (n : ℕ)
    (hc : db.customers ≠ []) (hp : db.products ≠ []) (hd : db.dates ≠ []) :
    (generate_and_load_transactions db σ (fun _ => false) n).error = none ∧
    (generate_and_load_transactions db σ (fun _ => false) n).committed.flatten
      = (List.range n).map (genRowD db.customers db.products db.dates σ) ∧
    (generate_and_load_transactions db σ (fun _ => false) n).committed.flatten.length = n ∧
    (∀ b ∈ (generate_and_load_transactions db σ (fun _ => false) n).committed,
      b.length ≤ 5000) ∧
    (n = 0 → (generate_and_load_transactions db σ (fun _ => false) n).committed = []) := by
  have hrun := runBatches_ok db.customers db.products db.dates σ (fun _ => false) n
    hc hp hd (batchStarts 5000 n) [] (fun _ _ => rfl)
  unfold generate_and_load_transactions
  rw [hrun]
  have hflat : ((batchStarts 5000 n).map
      (fun s => genBatchD db.customers db.products db.dates σ s n)).flatten
      = (List.range n).map (genRowD db.customers db.products db.dates σ) := by
    simp only [genBatchD]
    rw [show (batchStarts 5000 n).map
        (fun s => (List.range' s (min (s + 5000) n - s)).map
          (genRowD db.customers db.products db.dates σ))
      = ((batchStarts 5000 n).map
          (fun s => List.range' s (min (s + 5000) n - s))).map
          (List.map (genRowD db.customers db.products db.dates σ)) from by
        rw [List.map_map]
        rfl]
    rw [← List.map_flatten]
    rw [batchStarts, joinRanges 5000 (by norm_num) n 0 n (by omega)]
    rw [Nat.sub_zero, ← List.range_eq_range']
  refine ⟨rfl, ?_, ?_, ?_, ?_⟩
  · simpa using hflat
  · simp only [List.nil_append]
    rw [hflat]
    simp
  · intro b hb
    simp only [List.nil_append] at hb
    obtain ⟨s, _, rfl⟩ := List.mem_map.mp hb
    simp only [genBatchD, List.length_map, List.length_range']
    omega
  · intro hn
    subst hn
    simp [batchStarts, batchStartsAux]

/-- Witness for C4 at a concrete two-row run. -/
theorem C4_witness :
    (([7] : List ℕ) ≠ [] ∧ ([(3, (5 : ℚ))] : List (ℕ × ℚ)) ≠ [] ∧ ([9] : List ℕ) ≠ []) ∧
    (generate_and_load_transactions ⟨[7], [(3, 5)], [9]⟩ (fun _ => 0)
        (fun _ => false) 2).error = none ∧
    (generate_and_load_transactions ⟨[7], [(3, 5)], [9]⟩ (fun _ => 0)
        (fun _ => false) 2).committed.flatten.length = 2 := by
  refine ⟨⟨by simp, by simp, by simp⟩, ?_, ?_⟩
  · exact (C4_exact_count_batching ⟨[7], [(3, 5)], [9]⟩ (fun _ => 0) 2
      (by simp) (by simp) (by simp)).1
  · exact (C4_exact_count_batching ⟨[7], [(3, 5)], [9]⟩ (fun _ => 0) 2
      (by simp) (by simp) (by simp)).2.2.1

/-- C5: if inserting batch `j` (0-based; batch k = j+1 in 1-based
numbering) fails while all earlier batches succeed, the run ends with
exactly the rows of batches before `j` committed — the first `j * 5000`
generated rows — the rows of batch `j` and all later batches absent, and
the failure surfaced as the run's error; no retry is performed (the run
function terminates at the failure). -/
theorem C5_batch_commit_boundary (db : DB) (σ : ℕ → ℕ) (f : ℕ → Bool) (n j : ℕ)
    (hc : db.customers ≠ []) (hp : db.products ≠ []) (hd : db.dates ≠ [])
    (hfirst : ∀ i, i < j → f i = false) (hfj : f j = true) (hjn : j * 5000 < n) :
    (generate_and_load_transactions db σ f n).committed.flatten
      = (List.range (j * 5000)).map (genRowD db.customers db.products db.dates σ) ∧
    (generate_and_load_transactions db σ f n).error = some .insertFailure := by
  have hrun := runBatches_fail db.customers db.products db.dates σ f n j hc hp hd hfj hjn
    n 0 0 [] (by ring) (by omega) (fun i _ hij => hfirst i hij) (by omega)
  unfold generate_and_load_transactions
  rw [batchStarts, hrun]
  refine ⟨?_, rfl⟩
  simp only [List.nil_append, Nat.sub_zero]
  have hflat : ((List.range' 0 j).map
      (fun b => genBatchD db.customers db.products db.dates σ (b * 5000) n)).flatten
      = (List.range (j * 5000)).map (genRowD db.customers db.products db.dates σ) := by
    simp only [genBatchD]
    rw [show (List.range' 0 j).map
        (fun b => (List.range' (b * 5000) (min (b * 5000 + 5000) n - b * 5000)).map
          (genRowD db.customers db.products db.dates σ))
      = ((List.range' 0 j).map
          (fun b => List.range' (b * 5000) (min (b * 5000 + 5000) n - b * 5000))).map
          (List.map (genRowD db.customers db.products db.dates σ)) from by
        rw [List.map_map]
        rfl]
    rw [← List.map_flatten]
    rw [flatten_full_ranges 5000 (by norm_num) j n (by omega)]
  exact hflat

/-- Witness for C5: with batch 1 (0-based) failing in a 10001-row run,
the first 5000 rows stay committed and the failure is surfaced. -/
theorem C5_witness :
    (([7] : List ℕ) ≠ [] ∧ ([(3, (5 : ℚ))] : List (ℕ × ℚ)) ≠ [] ∧ ([9] : List ℕ) ≠ [] ∧
      (fun i => decide (i = 1)) 1 = true ∧ 1 * 5000 < 10001) ∧
    (generate_and_load_transactions ⟨[7], [(3, 5)], [9]⟩ (fun _ => 0)
        (fun i => decide (i = 1)) 10001).committed.flatten
      = (List.range (1 * 5000)).map (genRowD [7] [(3, 5)] [9] (fun _ => 0)) ∧
    (generate_and_load_transactions ⟨[7], [(3, 5)], [9]⟩ (fun _ => 0)
        (fun i => decide (i = 1)) 10001).error = some .insertFailure := by
  have h := C5_batch_commit_boundary ⟨[7], [(3, 5)], [9]⟩ (fun _ => 0)
    (fun i => decide (i = 1)) 10001 1 (by simp) (by simp) (by simp)
    (fun i hi => by
      have : i = 0 := by omega
      subst this
      rfl)
    (by rfl) (by norm_num)
  exact ⟨⟨by simp, by simp, by simp, by rfl, by norm_num⟩, h.1, h.2⟩

/-- A row generation attempt against any empty key list fails with the
empty-sequence sampling error, whichever of the three lists is empty. -/
theorem genRow_error_of_empty (cids : List ℕ) (prods : List (ℕ × ℚ)) (dids : List ℕ)
    (σ : ℕ → ℕ) (i : ℕ) (h : cids = [] ∨ prods = [] ∨ dids = []) :
    genRow cids prods dids σ i = .error .emptySample := by
  rcases h with h | h | h
  · subst h
    simp [genRow, choice, Except.bind, bind]
  · subst h
    rw [genRow]
    cases hch : choice cids (σ (5 * i)) with
    | error e =>
      have he : e = .emptySample := by
        unfold choice at hch
        split at hch
        · exact (Except.error.injEq _ _).mp hch.symm
        · cases hch
      simp [hch, he, Except.bind, bind]
    | ok c =>
      simp [hch, Except.bind, bind, choice]
  · subst h
    rw [genRow]
    cases hch : choice cids (σ (5 * i)) with
    | error e =>
      have he : e = .emptySample := by
        unfold choice at hch
        split at hch
        · exact (Except.error.injEq _ _).mp hch.symm
        · cases hch
      simp [hch, he, Except.bind, bind]
    | ok c =>
      cases hch2 : choice (prods.map Prod.fst) (σ (5 * i + 1)) with
      | error e =>
        have he : e = .emptySample := by
          unfold choice at hch2
          split at hch2
          · exact (Except.error.injEq _ _).mp hch2.symm
          · cases hch2
        simp [hch, hch2, he, Except.bind, bind]
      | ok p =>
        simp [hch, hch2, Except.bind, bind, choice]

/-- C8 amended: when `num_transactions ≥ 1` and any of the customer,
product or date key sets is empty, the run aborts with the empty-sequence
sampling error numpy raises at the first sample of the first batch —
not with an explicit precondition check before generation — and no fact
row is committed. -/
theorem C8_empty_keys_amended (db : DB) (σ : ℕ → ℕ) (f : ℕ → Bool) (n : ℕ)
    (hn : 1 ≤ n) (h : db.customers = [] ∨ db.products = [] ∨ db.dates = []) :
    generate_and_load_transactions db σ f n = ⟨[], some .emptySample⟩ := by
  obtain ⟨m, rfl⟩ : ∃ m, n = m + 1 := ⟨n - 1, by omega⟩
  have hstarts : batchStarts 5000 (m + 1) = 0 :: batchStartsAux 5000 m 5000 (m + 1) := by
    rw [batchStarts, batchStartsAux, if_pos (by omega)]
  have hk : min (0 + 5000) (m + 1) - 0 = (min 5000 (m + 1) - 1) + 1 := by omega
  have hrange : List.range' 0 (min (0 + 5000) (m + 1) - 0)
      = 0 :: List.range' 1 (min 5000 (m + 1) - 1) := by
    rw [hk, List.range'_succ]
  have hgb : genBatch db.customers db.products db.dates σ 0 (m + 1)
      = .error .emptySample := by
    rw [genBatch, hrange, mapME, genRow_error_of_empty db.customers db.products db.dates σ 0 h]
    rfl
  unfold generate_and_load_transactions
  rw [hstarts, runBatches, hgb]

/-- C8 counterexample: with an empty customers key set and one requested
transaction, the source run fails with the empty-sequence sampling error
raised inside generation of the first batch (`LoadErr.emptySample`), not
with a precondition error reported before generation starts
(`LoadErr.precondition`): the claimed fail-fast precondition check does
not exist in the code, although indeed no fact row is committed. -/
theorem C8_counterexample :
    (generate_and_load_transactions ⟨[], [(1, 10)], [1]⟩ (fun _ => 0)
        (fun _ => false) 1)
      = ⟨[], some .emptySample⟩ ∧
    some LoadErr.emptySample ≠ some LoadErr.precondition := by
  constructor
  · exact C8_empty_keys_amended ⟨[], [(1, 10)], [1]⟩ (fun _ => 0) (fun _ => false) 1
      (by norm_num) (Or.inl rfl)
  · simp

/-- Witness for C8's amended theorem at a concrete input. -/
theorem C8_amended_witness :
    ((1 : ℕ) ≤ 1 ∧ (([] : List ℕ) = [] ∨ ([(1, (10 : ℚ))] : List (ℕ × ℚ)) = [] ∨
      ([1] : List ℕ) = [])) ∧
    (generate_and_load_transactions ⟨[], [(1, 10)], [1]⟩ (fun _ => 1)
        (fun _ => true) 1)
      = ⟨[], some .emptySample⟩ :=
  ⟨⟨le_refl 1, Or.inl rfl⟩,
    C8_empty_keys_amended ⟨[], [(1, 10)], [1]⟩ (fun _ => 1) (fun _ => true) 1
      (le_refl 1) (Or.inl rfl)⟩

theorem daysInMonth_le (y m : ℕ) : daysInMonth y m ≤ 31 := by
  rw [daysInMonth]
  split
  · split <;> omega
  · split <;> omega

theorem daysInMonth_pos (y m : ℕ) : 1 ≤ daysInMonth y m := by
  rw [daysInMonth]
  split
  · split <;> omega
  · split <;> omega

theorem nextDay_valid {d : Date} (h : dateValid d) : dateValid (nextDay d) := by
  obtain ⟨y, m, day⟩ := d
  obtain ⟨h1, h2, h3, h4⟩ := h
  have hle := daysInMonth_le y m
  simp only [dateValid] at h1 h2 h3 h4 ⊢
  rw [nextDay]
  dsimp only
  split
  · refine ⟨?_, ?_, ?_, ?_⟩ <;> dsimp only <;> omega
  · split
    · refine ⟨?_, ?_, ?_, ?_⟩ <;> dsimp only <;> omega
    · refine ⟨?_, ?_, ?_, ?_⟩ <;> dsimp only <;> omega

theorem toKey_lt_nextDay {d : Date} (h : dateValid d) : toKey d < toKey (nextDay d) := by
  obtain ⟨y, m, day⟩ := d
  obtain ⟨h1, h2, h3, h4⟩ := h
  simp only [dateValid] at h1 h2 h3 h4
  rw [nextDay]
  dsimp only
  split
  · simp only [toKey]
    omega
  · split
    · simp only [toKey]
      omega
    · simp only [toKey]
      omega

theorem dateRangeAux_valid :
    ∀ (fuel : ℕ) (cur last : Date), dateValid cur →
      ∀ d ∈ dateRangeAux fuel cur last, dateValid d
  | 0, cur, last, _ => by simp [dateRangeAux]
  | fuel + 1, cur, last, hv => by
    rw [dateRangeAux]
    split
    · intro d hd
      rcases List.mem_cons.mp hd with h | h
      · subst h
        exact hv
      · exact dateRangeAux_valid fuel (nextDay cur) last (nextDay_valid hv) d h
    · simp

theorem dateRangeAux_head :
    ∀ (fuel : ℕ) (cur last x : Date),
      (dateRangeAux fuel cur last).head? = some x → x = cur
  | 0, cur, last, x => by simp [dateRangeAux]
  | fuel + 1, cur, last, x => by
    rw [dateRangeAux]
    split
    · intro h
      simpa using h.symm
    · simp

theorem dateRangeAux_chain :
    ∀ (fuel : ℕ) (cur last : Date),
      List.Chain' (fun a b => b = nextDay a) (dateRangeAux fuel cur last)
  | 0, cur, last => by simp [dateRangeAux]
  | fuel + 1, cur, last => by
    rw [dateRangeAux]
    split
    · rw [List.chain'_cons']
      refine ⟨?_, dateRangeAux_chain fuel (nextDay cur) last⟩
      intro y hy
      exact (dateRangeAux_head fuel (nextDay cur) last y hy).symm ▸ rfl
    · simp

theorem dateRangeAux_key_chain :
    ∀ (fuel : ℕ) (cur last : Date), dateValid cur →
      List.Chain' (fun a b => toKey a < toKey b) (dateRangeAux fuel cur last)
  | 0, cur, last, _ => by simp [dateRangeAux]
  | fuel + 1, cur, last, hv => by
    rw [dateRangeAux]
    split
    · rw [List.chain'_cons']
      refine ⟨?_, dateRangeAux_key_chain fuel (nextDay cur) last (nextDay_valid hv)⟩
      intro y hy
      rw [dateRangeAux_head fuel (nextDay cur) last y hy]
      exact toKey_lt_nextDay hv
    · simp

theorem date_range_nodup : date_range.Nodup := by
  have hchain : List.Chain' (fun a b => toKey a < toKey b) date_range :=
    dateRangeAux_key_chain 1000 startDate endDate (by rw [startDate]; exact ⟨by norm_num, by norm_num, by norm_num, by norm_num⟩)
  have hmap : List.Chain' (fun a b : ℕ => a < b) (date_range.map toKey) :=
    (List.chain'_map toKey).mpr hchain
  have hpairmap : List.Pairwise (fun a b : ℕ => a < b) (date_range.map toKey) :=
    List.chain'_iff_pairwise.mp hmap
  have hpair : List.Pairwise (fun a b => toKey a < toKey b) date_range :=
    (List.pairwise_map).mp hpairmap
  exact hpair.imp (fun {a b} hab => fun heq => by subst heq; omega)

theorem generate_date_dimension_dates :
    generate_date_dimension.map DateRow.date_value = date_range := by
  rw [generate_date_dimension, List.map_map]
  exact List.map_id'' (fun d => rfl) _

/-- C6 counterexample: the first generated row is the row for 2023-01-01,
which was a Sunday (`day_of_week = 7`), so its `is_weekend` flag is true —
contradicting the claim's example that `is_weekend` is false for
2023-01-01..2023-01-06 (the example is also inconsistent with the claim's
own rule that weekends are exactly Saturdays and Sundays). -/
theorem C6_counterexample :
    generate_date_dimension.head? = some (mkDateRow startDate) ∧
    (mkDateRow startDate).date_value = ⟨2023, 1, 1⟩ ∧
    (mkDateRow startDate).is_weekend = true ∧
    (mkDateRow startDate).day_of_week = 7 := by
  refine ⟨?_, ?_, ?_, ?_⟩ <;> decide

/-- C6 amended: `generate_date_dimension` produces exactly one row per
calendar day from 2023-01-01 through 2024-12-31 inclusive (731 rows), in
date order with no duplicates and no gaps (each successive date is the
calendar successor of the previous one); every row's `day_of_week` is in
1..7 with Monday = 1 (2023-01-02, the second row, was a Monday and gets 1)
and `is_weekend` holds exactly when `day_of_week` is 6 or 7 (Saturday or
Sunday); within the first ten days `is_weekend` is true exactly for
2023-01-01 (a Sunday), 2023-01-07 and 2023-01-08. -/
theorem C6_date_dimension_amended :
    generate_date_dimension.length = 731 ∧
    (generate_date_dimension.map DateRow.date_value).head? = some startDate ∧
    (generate_date_dimension.map DateRow.date_value).getLast? = some endDate ∧
    List.Chain' (fun a b => b = nextDay a)
      (generate_date_dimension.map DateRow.date_value) ∧
    (generate_date_dimension.map DateRow.date_value).Nodup ∧
    (∀ r ∈ generate_date_dimension,
      1 ≤ r.day_of_week ∧ r.day_of_week ≤ 7 ∧
      (r.is_weekend = true ↔ (r.day_of_week = 6 ∨ r.day_of_week = 7))) ∧
    (generate_date_dimension.map DateRow.day_of_week).take 3 = [7, 1, 2] ∧
    (generate_date_dimension.map DateRow.is_weekend).take 10
      = [true, false, false, false, false, false, true, true, false, false] := by
  rw [generate_date_dimension_dates]
  refine ⟨?_, ?_, ?_, ?_, ?_, ?_, ?_, ?_⟩
  · rw [generate_date_dimension, List.length_map]
    decide
  · decide
  · decide
  · exact dateRangeAux_chain 1000 startDate endDate
  · exact date_range_nodup
  · intro r hr
    rw [generate_date_dimension] at hr
    obtain ⟨d, _, rfl⟩ := List.mem_map.mp hr
    have hdow : dow0 d < 7 := Nat.mod_lt _ (by norm_num)
    refine ⟨?_, ?_, ?_⟩
    · simp [mkDateRow]
    · simp [mkDateRow]
      omega
    · simp only [mkDateRow, decide_eq_true_eq]
      omega
  · decide
  · decide

/-- Witness for C6's amended theorem: the per-row day-of-week/weekend
property instantiated at the first generated row. -/
theorem C6_witness :
    1 ≤ (mkDateRow startDate).day_of_week ∧ (mkDateRow startDate).day_of_week ≤ 7 ∧
      ((mkDateRow startDate).is_weekend = true ↔
        ((mkDateRow startDate).day_of_week = 6 ∨ (mkDateRow startDate).day_of_week = 7)) :=
  C6_date_dimension_amended.2.2.2.2.2.1 (mkDateRow startDate) (by decide)

/-- C10 counterexample: two runs of the dimension generator with identical
parameters and the identical seed, performed on consecutive days
(2025-01-01 and 2025-01-02), write different bytes for `customers.csv`:
`fake.date_between(start_date=-1y, end_date=today)` anchors the sampled
registration dates to the current day, which is not part of the seed.  So
re-running with the same parameters and fixed seed is not sufficient for
byte-identical output files. -/
theorem C10_counterexample :
    (runGenerator 1 1 0 ⟨2025, 1, 1⟩).customers
      ≠ (runGenerator 1 1 0 ⟨2025, 1, 2⟩).customers := by
  decide

/-- C10 amended: with the same parameters and the same seed, the dates and
products files are byte-identical regardless of the run day, and if the
two runs additionally happen on the same day, all three output files are
byte-identical (the generator is a pure function of parameters, seed and
current day). -/
theorem C10_amended_determinism (nc np s1 s2 : ℕ) (t1 t2 : Date) (hs : s1 = s2) :
    (runGenerator nc np s1 t1).dates = (runGenerator nc np s2 t2).dates ∧
    (runGenerator nc np s1 t1).products = (runGenerator nc np s2 t2).products ∧
    (t1 = t2 → runGenerator nc np s1 t1 = runGenerator nc np s2 t2) := by
  subst hs
  exact ⟨rfl, rfl, fun ht => by rw [ht]⟩

/-- Witness for C10's amended theorem at concrete parameters. -/
theorem C10_witness :
    (0 : ℕ) = 0 ∧
    ((runGenerator 2 3 0 ⟨2025, 6, 15⟩).dates = (runGenerator 2 3 0 ⟨2025, 6, 15⟩).dates ∧
     (runGenerator 2 3 0 ⟨2025, 6, 15⟩).products = (runGenerator 2 3 0 ⟨2025, 6, 15⟩).products ∧
     ((⟨2025, 6, 15⟩ : Date) = ⟨2025, 6, 15⟩ →
       runGenerator 2 3 0 ⟨2025, 6, 15⟩ = runGenerator 2 3 0 ⟨2025, 6, 15⟩)) :=
  ⟨rfl, C10_amended_determinism 2 3 0 0 ⟨2025, 6, 15⟩ ⟨2025, 6, 15⟩ rfl⟩

/-- C7: each dimension is loaded all-or-nothing: the committed state holds
either every row of the dimension's file or none of it; if no insert fails
everything is committed, and any insertion failure is reported and leaves
no dimension partially committed (the source is even coarser than the
claim: one transaction covers all three dimensions, so a failure rolls
back all of them, which in particular gives per-dimension atomicity). -/
theorem C7_dimension_atomicity (files : DimFiles) (fd fc fp : ℕ → Bool) :
    ((load_dimension_tables files fd fc fp).1.dates = files.dates ∨
      (load_dimension_tables files fd fc fp).1.dates = []) ∧
    ((load_dimension_tables files fd fc fp).1.customers = files.customers ∨
      (load_dimension_tables files fd fc fp).1.customers = []) ∧
    ((load_dimension_tables files fd fc fp).1.products = files.products ∨
      (load_dimension_tables files fd fc fp).1.products = []) ∧
    ((load_dimension_tables files fd fc fp).2 = none →
      (load_dimension_tables files fd fc fp).1
        = ⟨files.dates, files.customers, files.products⟩) ∧
    ((load_dimension_tables files fd fc fp).2 ≠ none →
      (load_dimension_tables files fd fc fp).1 = emptyDims) := by
  unfold load_dimension_tables
  cases insertRows fd 0 files.dates.length with
  | error e => exact ⟨Or.inr rfl, Or.inr rfl, Or.inr rfl, by simp, by simp [emptyDims]⟩
  | ok _ =>
    cases insertRows fc 0 files.customers.length with
    | error e => exact ⟨Or.inr rfl, Or.inr rfl, Or.inr rfl, by simp, by simp [emptyDims]⟩
    | ok _ =>
      cases insertRows fp 0 files.products.length with
      | error e => exact ⟨Or.inr rfl, Or.inr rfl, Or.inr rfl, by simp, by simp [emptyDims]⟩
      | ok _ => exact ⟨Or.inl rfl, Or.inl rfl, Or.inl rfl, by simp, by simp⟩

/-- Witness for C7 at a concrete load with a failing product insert: the
error is reported and nothing is committed. -/
theorem C7_witness :
    ((load_dimension_tables c7files (fun _ => false) (fun _ => false) (fun _ => true)).1.dates
        = c7files.dates ∨
      (load_dimension_tables c7files (fun _ => false) (fun _ => false) (fun _ => true)).1.dates
        = []) ∧
    ((load_dimension_tables c7files (fun _ => false) (fun _ => false) (fun _ => true)).2 ≠ none →
      (load_dimension_tables c7files (fun _ => false) (fun _ => false) (fun _ => true)).1
        = emptyDims) :=
  ⟨(C7_dimension_atomicity c7files (fun _ => false) (fun _ => false) (fun _ => true)).1,
   (C7_dimension_atomicity c7files (fun _ => false) (fun _ => false) (fun _ => true)).2.2.2.2⟩

/-- C9 counterexample: if the first report (monthly sales) fails, the run
attempts only that report — the other five are never attempted — and the
single `except` clause reports one error for the whole run: reports are
not independent in the source, refuting the claim. -/
theorem C9_counterexample :
    analytics_main (fun r => decide (r = .monthly)) = ([.monthly], some .monthly) ∧
    ([Report.monthly] : List Report) ≠ reportOrder := by
  constructor
  · rfl
  · simp [reportOrder]

theorem runReports_first_fail (fails : Report → Bool) :
    ∀ (l : List Report) (j : ℕ) (hj : j < l.length),
      (∀ i (hi : i < j), fails (l.get ⟨i, by omega⟩) = false) →
      fails (l.get ⟨j, hj⟩) = true →
      runReports fails l = (l.take (j + 1), some (l.get ⟨j, hj⟩))
  | [], j, hj => by simp at hj
  | r :: rest, 0, hj => by
    intro _ hf
    simp only [List.get] at hf
    rw [runReports, if_pos hf]
    simp
  | r :: rest, j + 1, hj => by
    intro hfirst hf
    have hr : fails r = false := hfirst 0 (by omega)
    rw [runReports, if_neg (by rw [hr]; simp)]
    rw [runReports_first_fail fails rest j (by simpa using hj)
      (fun i hi => hfirst (i + 1) (by omega)) hf]
    simp

/-- C9 amended: the six reports run sequentially inside one `try` block;
if report `j` (0-based) is the first whose query fails, the run attempts
exactly the reports up to and including `j`, the later reports are never
attempted, and the one failure is surfaced for the whole reporting run
(so a failure in one report DOES prevent the subsequent reports). -/
theorem C9_amended_single_try (fails : Report → Bool) (j : ℕ) (hj : j < reportOrder.length)
    (hfirst : ∀ i (hi : i < j), fails (reportOrder.get ⟨i, by omega⟩) = false)
    (hfail : fails (reportOrder.get ⟨j, hj⟩) = true) :
    analytics_main fails = (reportOrder.take (j + 1), some (reportOrder.get ⟨j, hj⟩)) :=
  runReports_first_fail fails reportOrder j hj hfirst hfail

/-- Witness for C9's amended theorem: the second report (top customers)
fails; only the first two reports are attempted. -/
theorem C9_witness :
    ((1 : ℕ) < reportOrder.length) ∧
    analytics_main (fun r => decide (r = .topCustomers))
      = (reportOrder.take 2, some (reportOrder.get ⟨1, by simp [reportOrder]⟩)) := by
  refine ⟨by simp [reportOrder], ?_⟩
  exact C9_amended_single_try (fun r => decide (r = .topCustomers)) 1
    (by simp [reportOrder])
    (fun i hi => by
      have : i = 0 := by omega
      subst this
      rfl)
    (by rfl)

end DWH
